import Mathlib

/-!
Verification of the AutoDiag scoring engine (`src/main.py`).

The embedding is character-level: Python strings become Lean `String`
(a structure over `List Char`), Python floats become `ℚ` (every literal in
the program is a small decimal, and the operations are +, min/max, /, and
`round(_, 3)`), Python `None` becomes `Option`.

A central point of the model: in `diagnose`, `suggestions.extend(items)`
appends the *same dict objects* stored in `FAULT_CODE_MAP` (no copy), and the
keyword-boost loop executes `s["base"] += hint["boost"]` in place, so boosts
write through to the global table.  `diagnose` is therefore modelled as a
function from the knowledge-base value and the request to the response
*paired with the knowledge-base value after the call*.
-/

namespace AutoDiag

/-- Python `needle in hay` on strings, at the character-list level. -/
def infixOfAux (needle : List Char) : List Char → Bool
  | [] => needle.isEmpty
  | c :: cs => needle.isPrefixOf (c :: cs) || infixOfAux needle cs

/-- Python `k in desc` (substring containment). -/
def strContains (hay needle : String) : Bool :=
  infixOfAux needle.data hay.data

/-- Python `s.startswith(pre)`. -/
def strStartsWith (s pre : String) : Bool :=
  pre.data.isPrefixOf s.data

/-- Python `s.endswith(suf)`. -/
def strEndsWith (s suf : String) : Bool :=
  suf.data.isSuffixOf s.data

/-- Python `s.lower()` (ASCII case mapping suffices for this program). -/
def strLower (s : String) : String :=
  ⟨s.data.map Char.toLower⟩

/-- Python `s.upper()`. -/
def strUpper (s : String) : String :=
  ⟨s.data.map Char.toUpper⟩

/-- Python `s[:n]`. -/
def strTake (s : String) (n : Nat) : String :=
  ⟨s.data.take n⟩

/-- Python `s.strip()`: drop leading and trailing whitespace. -/
def strTrim (s : String) : String :=
  ⟨(s.data.dropWhile Char.isWhitespace).reverse.dropWhile Char.isWhitespace |>.reverse⟩

/-- Python `s.split()[0]`: the first maximal run of non-whitespace
characters (empty when there is none). -/
def firstWord (s : String) : String :=
  ⟨(s.data.dropWhile Char.isWhitespace).takeWhile (fun c => !c.isWhitespace)⟩

/-- One value of `FAULT_CODE_MAP` / one working-list entry:
`{"part": …, "base": …, "reason": …}`. -/
structure CandidateEntry where
  part : String
  base : ℚ
  reason : String
deriving DecidableEq

/-- One element of the response list: `{"part", "likelihood", "reason"}`. -/
structure Suggestion where
  part : String
  likelihood : ℚ
  reason : String
deriving DecidableEq

/-- One entry of `KEYWORD_HINTS`. -/
structure KeywordHint where
  keywords : List String
  part : String
  boost : ℚ
deriving DecidableEq

/-- The knowledge base: an insertion-ordered dict from fault-code keys to
candidate lists (`main.py` lines 78–100). -/
abbrev KB := List (String × List CandidateEntry)

/-- The `"P030"` entry list of `FAULT_CODE_MAP`. -/
def P030_ITEMS : List CandidateEntry :=
  [ { part := "Spark Plugs", base := 6/10, reason := "Engine misfire detected" }
  , { part := "Ignition Coils", base := 5/10, reason := "Weak/no spark" }
  , { part := "Fuel Injectors", base := 35/100, reason := "Fuel delivery issues" }
  , { part := "Vacuum Leak", base := 25/100, reason := "Unmetered air causing lean" } ]

/-- The `"P017"` entry list of `FAULT_CODE_MAP`. -/
def P017_ITEMS : List CandidateEntry :=
  [ { part := "O2 Sensor (Upstream)", base := 5/10, reason := "Fuel trim lean" }
  , { part := "MAF Sensor", base := 45/100, reason := "Airflow reading incorrect" }
  , { part := "Vacuum Leak", base := 4/10, reason := "Extra air entering intake" }
  , { part := "Fuel Pump/Filter", base := 3/10, reason := "Low fuel pressure" } ]

/-- The `"P042"` entry list of `FAULT_CODE_MAP`. -/
def P042_ITEMS : List CandidateEntry :=
  [ { part := "Catalytic Converter", base := 6/10, reason := "Efficiency below threshold" }
  , { part := "O2 Sensor (Downstream)", base := 4/10, reason := "Sensor aging or slow" }
  , { part := "Exhaust Leak", base := 25/100, reason := "False oxygen readings" } ]

/-- The `"P012"` entry list of `FAULT_CODE_MAP`. -/
def P012_ITEMS : List CandidateEntry :=
  [ { part := "Throttle Position Sensor", base := 5/10, reason := "TPS circuit issues" }
  , { part := "Wiring/Connector", base := 35/100, reason := "Signal interruption" } ]

/-- `FAULT_CODE_MAP` from `main.py`, in dict insertion order. -/
def FAULT_CODE_MAP : KB :=
  [ ("P030", P030_ITEMS), ("P017", P017_ITEMS), ("P042", P042_ITEMS), ("P012", P012_ITEMS) ]

/-- `KEYWORD_HINTS` from `main.py` lines 102–108. -/
def KEYWORD_HINTS : List KeywordHint :=
  [ { keywords := ["rough idle", "shakes", "vibration"], part := "Spark Plugs", boost := 15/100 }
  , { keywords := ["stalls", "dies", "no start"], part := "Fuel Pump", boost := 2/10 }
  , { keywords := ["hesitation", "lag", "surge"], part := "MAF Sensor", boost := 12/100 }
  , { keywords := ["rotten egg", "sulfur"], part := "Catalytic Converter", boost := 18/100 }
  , { keywords := ["whistle", "hiss"], part := "Vacuum Leak", boost := 15/100 } ]

/-- The fallback seeds of `main.py` lines 126–130 (fresh dicts each call). -/
def FALLBACK : List CandidateEntry :=
  [ { part := "Battery", base := 25/100, reason := "Common electrical issue" }
  , { part := "Alternator", base := 2/10, reason := "Charging system faults" }
  , { part := "Spark Plugs", base := 18/100, reason := "Wear item, causes misfires" } ]

/-- Lines 116–119: `prefix` stays `None` when `req.fault_code` is falsy
(`None` or `""`); otherwise `clean = fault_code.strip().upper()` and the
first four characters are taken (`clean[:4] if len(clean) >= 4 else clean`
is `clean[:4]` in both branches). -/
def mkPfx (fault_code : Option String) : Option String :=
  match fault_code with
  | none => none
  | some fc => if fc.data.isEmpty then none else some (strTake (strUpper (strTrim fc)) 4)

/-- Line 121's test, lifted to the optional code: with no fault code
the seeding loop never runs, so no key matches. -/
def keyMatches (pOpt : Option String) (key : String) : Bool :=
  match pOpt with
  | none => false
  | some p => strStartsWith p key

/-- Lines 120–122: extend the working list with every rule whose key the
computed code starts with, in dict order. -/
def seedCandidates (kb : KB) (pOpt : Option String) : List CandidateEntry :=
  kb.foldl (fun acc r => if keyMatches pOpt r.1 then acc ++ r.2 else acc) []

/-- Does this hint fire on the (already lowercased) description?
(`any(k in desc for k in hint["keywords"])`, line 135). -/
def hintFires (desc : String) (h : KeywordHint) : Bool :=
  h.keywords.any (fun k => strContains desc k)

/-- Does this hint's target match a given part name?
(`s["part"].lower().startswith(hint["part"].lower().split()[0])`, line 137). -/
def hintTargets (h : KeywordHint) (part : String) : Bool :=
  strStartsWith (strLower part) (firstWord (strLower h.part))

/-- The in-place effect of one hint on one working-list dict (line 138). -/
def hintStep (desc : String) (h : KeywordHint) (c : CandidateEntry) : CandidateEntry :=
  if hintFires desc h && hintTargets h c.part then { c with base := c.base + h.boost } else c

/-- One iteration of the outer boost loop (lines 134–138) over a list of
working dicts. -/
def boostOne (desc : String) (h : KeywordHint) (cs : List CandidateEntry) : List CandidateEntry :=
  if hintFires desc h then cs.map (fun c => hintStep desc h c) else cs

/-- The whole boost loop over an arbitrary hint list. -/
def foldBoosts (desc : String) (hs : List KeywordHint) (cs : List CandidateEntry) :
    List CandidateEntry :=
  hs.foldl (fun acc h => boostOne desc h acc) cs

/-- Lines 132–138 with the program's `KEYWORD_HINTS`. -/
def applyBoosts (desc : String) (cs : List CandidateEntry) : List CandidateEntry :=
  foldBoosts desc KEYWORD_HINTS cs

/-- The total effect of the boost loop on a single working-list dict. -/
def boostFold (desc : String) (hs : List KeywordHint) (c : CandidateEntry) : CandidateEntry :=
  hs.foldl (fun x h => hintStep desc h x) c

/-- The sum of the boosts of the hints that fire on `desc` and target `part`. -/
def hintSum (desc : String) (hs : List KeywordHint) (part : String) : ℚ :=
  ((hs.filter (fun h => hintFires desc h && hintTargets h part)).map (fun h => h.boost)).sum

/-- `hintSum` over the program's hint table. -/
def boostSum (desc part : String) : ℚ :=
  hintSum desc KEYWORD_HINTS part

/-- The working list after seeding: the matched rules' entries, or the
fallback seeds when nothing matched (lines 120–130). -/
def workingList (kb : KB) (pOpt : Option String) : List CandidateEntry :=
  if (seedCandidates kb pOpt).isEmpty then FALLBACK else seedCandidates kb pOpt

/-- `max(0.0, min(1.0, x))` (lines 141 and 147). -/
def clamp01 (q : ℚ) : ℚ := max 0 (min 1 q)

/-- Round-half-to-even to an integer, the rounding of Python's `round`. -/
def rhe (q : ℚ) : ℤ :=
  if q - ⌊q⌋ < 1/2 then ⌊q⌋
  else if 1/2 < q - ⌊q⌋ then ⌊q⌋ + 1
  else if ⌊q⌋ % 2 = 0 then ⌊q⌋ else ⌊q⌋ + 1

/-- Python `round(x, 3)`. -/
def round3 (q : ℚ) : ℚ := (rhe (q * 1000) : ℚ) / 1000

/-- Line 151: the reason suffix.  Python tests the *truthiness* of `prefix`,
so both `None` and the empty string yield no suffix. -/
def suffixFor (pOpt : Option String) : String :=
  match pOpt with
  | none => ""
  | some p => if p.data.isEmpty then "" else " (matched " ++ p ++ ")"

/-- Lines 141–152: clamp, normalize (with the zero-total fallback divisor
`1.0`), round to 3 decimals, and annotate reasons. -/
def rankAll (pOpt : Option String) (cs : List CandidateEntry) : List Suggestion :=
  let total0 := (cs.map (fun c => clamp01 c.base)).sum
  let total := if total0 = 0 then 1 else total0
  cs.map (fun c =>
    { part := c.part
    , likelihood := round3 (clamp01 c.base / total)
    , reason := c.reason ++ suffixFor pOpt })

/-- Stable insertion keeping earlier elements before later equal ones. -/
def insertDesc (x : Suggestion) : List Suggestion → List Suggestion
  | [] => [x]
  | y :: ys => if y.likelihood ≤ x.likelihood then x :: y :: ys else y :: insertDesc x ys

/-- Line 155: Python's stable `sort(key=likelihood, reverse=True)`. -/
def sortDesc : List Suggestion → List Suggestion
  | [] => []
  | x :: xs => insertDesc x (sortDesc xs)

/-- `diagnose` (lines 111–156): returns the response list *and* the
knowledge-base value after the call.  Because the working list aliases the
matched rules' dicts, the boost loop mutates exactly the matched rules of
`FAULT_CODE_MAP`; the fallback branch builds fresh dicts and leaves the
table untouched. -/
def diagnose (kb : KB) (fault_code : Option String) (description : String) :
    List Suggestion × KB :=
  let pOpt := mkPfx fault_code
  let seeded := seedCandidates kb pOpt
  let desc := strLower description
  if seeded.isEmpty then
    ((sortDesc (rankAll pOpt (applyBoosts desc FALLBACK))).take 5, kb)
  else
    ((sortDesc (rankAll pOpt (applyBoosts desc seeded))).take 5,
      kb.map (fun r => if keyMatches pOpt r.1 then (r.1, applyBoosts desc r.2) else r))

/-- Outcome of a Persistence Gateway call; the `database` module is not part
of the source tree, so a call either succeeds with a value or raises. -/
inductive GatewayResult (α : Type) where
  | ok (value : α)
  | raised
deriving DecidableEq

/-- Lines 158–170: the endpoint wraps `create_document` in
`try/except: doc_id = None` and returns the computed list unchanged. -/
def diagnoseEndpoint (kb : KB) (fault_code : Option String) (description : String)
    (createResult : GatewayResult String) : (List Suggestion × Option String) × KB :=
  let r := diagnose kb fault_code description
  (( r.1
   , match createResult with
     | GatewayResult.ok i => some i
     | GatewayResult.raised => none), r.2)

/-- Lines 173–183: `history` returns the fetched items, or an empty item
list when `get_documents` raises. -/
def historyEndpoint {α : Type} (listResult : GatewayResult (List α)) : List α :=
  match listResult with
  | GatewayResult.ok items => items
  | GatewayResult.raised => []

/-! ### Structure of the boost loop -/

theorem entry_eq_of_fields {x y : CandidateEntry} (h1 : x.part = y.part)
    (h2 : x.base = y.base) (h3 : x.reason = y.reason) : x = y := by
  cases x; cases y; simp_all

theorem hintStep_part (desc : String) (h : KeywordHint) (c : CandidateEntry) :
    (hintStep desc h c).part = c.part := by
  unfold hintStep; split <;> rfl

theorem hintStep_reason (desc : String) (h : KeywordHint) (c : CandidateEntry) :
    (hintStep desc h c).reason = c.reason := by
  unfold hintStep; split <;> rfl

theorem hintStep_base (desc : String) (h : KeywordHint) (c : CandidateEntry) :
    (hintStep desc h c).base
      = c.base + (if hintFires desc h && hintTargets h c.part then h.boost else 0) := by
  unfold hintStep; split <;> simp_all

theorem boostFold_part (desc : String) (hs : List KeywordHint) (c : CandidateEntry) :
    (boostFold desc hs c).part = c.part := by
  induction hs generalizing c with
  | nil => rfl
  | cons h hs ih => rw [boostFold, List.foldl_cons, ← boostFold, ih, hintStep_part]

theorem boostFold_reason (desc : String) (hs : List KeywordHint) (c : CandidateEntry) :
    (boostFold desc hs c).reason = c.reason := by
  induction hs generalizing c with
  | nil => rfl
  | cons h hs ih => rw [boostFold, List.foldl_cons, ← boostFold, ih, hintStep_reason]

theorem boostFold_base (desc : String) (hs : List KeywordHint) (c : CandidateEntry) :
    (boostFold desc hs c).base = c.base + hintSum desc hs c.part := by
  induction hs generalizing c with
  | nil => simp [boostFold, hintSum]
  | cons h hs ih =>
      rw [boostFold, List.foldl_cons, ← boostFold, ih, hintStep_base, hintStep_part]
      by_cases hc : (hintFires desc h && hintTargets h c.part) = true <;>
        simp [hintSum, List.filter_cons, hc, add_assoc]

theorem hintStep_of_not_fires {desc : String} {h : KeywordHint} (hf : hintFires desc h = false)
    (c : CandidateEntry) : hintStep desc h c = c := by
  unfold hintStep; simp [hf]

theorem boostOne_eq_map (desc : String) (h : KeywordHint) (cs : List CandidateEntry) :
    boostOne desc h cs = cs.map (hintStep desc h) := by
  unfold boostOne
  by_cases hf : hintFires desc h = true
  · simp [hf]
  · have hf' : hintFires desc h = false := by simpa using hf
    simp only [hf', Bool.false_eq_true, if_false]
    symm
    simpa using List.map_congr_left (fun c (_ : c ∈ cs) => hintStep_of_not_fires hf' c)

theorem foldBoosts_eq_map (desc : String) (hs : List KeywordHint) (cs : List CandidateEntry) :
    foldBoosts desc hs cs = cs.map (boostFold desc hs) := by
  induction hs generalizing cs with
  | nil =>
      show cs = List.map (boostFold desc []) cs
      exact (List.map_id'' (fun c => rfl) cs).symm
  | cons h hs ih =>
      rw [foldBoosts, List.foldl_cons, ← foldBoosts, ih, boostOne_eq_map, List.map_map]
      rfl

theorem applyBoosts_eq_map (desc : String) (cs : List CandidateEntry) :
    applyBoosts desc cs
      = cs.map (fun c => ⟨c.part, c.base + boostSum desc c.part, c.reason⟩) := by
  rw [applyBoosts, foldBoosts_eq_map]
  refine List.map_congr_left (fun c _ => ?_)
  exact entry_eq_of_fields (boostFold_part ..) (by rw [boostFold_base]; rfl) (boostFold_reason ..)

theorem boostSum_nonneg (desc part : String) : 0 ≤ boostSum desc part := by
  refine List.sum_nonneg (fun x hx => ?_)
  rcases List.mem_map.1 hx with ⟨h, hmem, rfl⟩
  have hh : h ∈ KEYWORD_HINTS := (List.mem_filter.1 hmem).1
  have : ∀ h ∈ KEYWORD_HINTS, (0:ℚ) ≤ h.boost := by with_unfolding_all decide
  exact this h hh

/-! ### Clamping and rounding -/

theorem clamp01_nonneg (q : ℚ) : 0 ≤ clamp01 q := le_max_left 0 _

theorem clamp01_le_one (q : ℚ) : clamp01 q ≤ 1 :=
  max_le (by norm_num) (min_le_left 1 q)

theorem le_clamp01 {a q : ℚ} (_ha0 : 0 ≤ a) (ha1 : a ≤ 1) (h : a ≤ q) : a ≤ clamp01 q :=
  le_trans (le_min ha1 h) (le_max_right 0 _)

theorem abs_rhe_sub_le (q : ℚ) : |(rhe q : ℚ) - q| ≤ 1/2 := by
  have h0 : (⌊q⌋ : ℚ) ≤ q := Int.floor_le q
  have h1 : q < ⌊q⌋ + 1 := Int.lt_floor_add_one q
  unfold rhe
  split_ifs with hc1 hc2 hc3
  · rw [abs_le]
    constructor <;> linarith
  · rw [abs_le]
    push_cast
    constructor <;> linarith
  · have ha := le_of_not_lt hc1
    have hb := le_of_not_lt hc2
    rw [abs_le]
    constructor <;> linarith
  · have ha := le_of_not_lt hc1
    have hb := le_of_not_lt hc2
    rw [abs_le]
    push_cast
    constructor <;> linarith

theorem rhe_le {q : ℚ} {n : ℤ} (h : q ≤ (n:ℚ)) : rhe q ≤ n := by
  have h0 : (⌊q⌋ : ℚ) ≤ q := Int.floor_le q
  have hf : ⌊q⌋ ≤ n := by
    have h2 := Int.floor_le_floor h
    simpa using h2
  have hplus : (1:ℚ)/2 ≤ q - ⌊q⌋ → ⌊q⌋ + 1 ≤ n := by
    intro hr
    have hlt : (⌊q⌋:ℚ) < (n:ℚ) := by linarith
    have : ⌊q⌋ < n := by exact_mod_cast hlt
    omega
  unfold rhe
  split_ifs with hc1 hc2 hc3
  · exact hf
  · exact hplus (le_of_lt hc2)
  · exact hf
  · exact hplus (le_of_not_lt hc1)

theorem le_rhe {q : ℚ} {n : ℤ} (h : (n:ℚ) ≤ q) : n ≤ rhe q := by
  have hf : n ≤ ⌊q⌋ := Int.le_floor.mpr h
  unfold rhe
  split_ifs <;> omega

theorem round3_nonneg {q : ℚ} (h : 0 ≤ q) : 0 ≤ round3 q := by
  have h2 : (0:ℤ) ≤ rhe (q * 1000) := le_rhe (by push_cast; linarith)
  unfold round3
  have h3 : (0:ℚ) ≤ (rhe (q * 1000) : ℚ) := by exact_mod_cast h2
  positivity

theorem round3_le_one {q : ℚ} (h : q ≤ 1) : round3 q ≤ 1 := by
  have h2 : rhe (q * 1000) ≤ (1000:ℤ) := rhe_le (by push_cast; linarith)
  unfold round3
  rw [div_le_one (by norm_num)]
  exact_mod_cast h2

theorem abs_round3_sub_le (q : ℚ) : |round3 q - q| ≤ 1/2000 := by
  have h := abs_rhe_sub_le (q * 1000)
  have e : round3 q - q = ((rhe (q * 1000) : ℚ) - q * 1000) / 1000 := by
    unfold round3; ring
  rw [e, abs_le]
  rw [abs_le] at h
  constructor <;> linarith [h.1, h.2]

theorem sum_map_round3_close (l : List ℚ) :
    |((l.map round3).sum - l.sum)| ≤ (l.length : ℚ) * (1/2000) := by
  induction l with
  | nil => simp
  | cons x xs ih =>
      simp only [List.map_cons, List.sum_cons, List.length_cons]
      have h := abs_round3_sub_le x
      have e : round3 x + (xs.map round3).sum - (x + xs.sum)
          = (round3 x - x) + ((xs.map round3).sum - xs.sum) := by ring
      rw [e]
      calc |(round3 x - x) + ((xs.map round3).sum - xs.sum)|
          ≤ |round3 x - x| + |((xs.map round3).sum - xs.sum)| := abs_add _ _
        _ ≤ 1/2000 + (xs.length : ℚ) * (1/2000) := add_le_add h ih
        _ = ((xs.length + 1 : ℕ) : ℚ) * (1/2000) := by push_cast; ring

theorem sum_map_div (l : List ℚ) (t : ℚ) :
    (l.map (fun x => x / t)).sum = l.sum / t := by
  induction l with
  | nil => simp
  | cons x xs ih => simp [List.sum_cons, ih, add_div]

/-! ### The stable descending sort -/

theorem insertDesc_perm (x : Suggestion) (l : List Suggestion) :
    List.Perm (insertDesc x l) (x :: l) := by
  induction l with
  | nil => exact List.Perm.refl _
  | cons y ys ih =>
      unfold insertDesc
      split_ifs with h
      · exact List.Perm.refl _
      · exact (List.Perm.cons y ih).trans (List.Perm.swap x y ys)

theorem sortDesc_perm (l : List Suggestion) : List.Perm (sortDesc l) l := by
  induction l with
  | nil => exact List.Perm.refl _
  | cons x xs ih => exact (insertDesc_perm x (sortDesc xs)).trans (List.Perm.cons x ih)

theorem sortDesc_length (l : List Suggestion) : (sortDesc l).length = l.length :=
  (sortDesc_perm l).length_eq

theorem pairwise_insertDesc (x : Suggestion) (l : List Suggestion)
    (h : l.Pairwise (fun a b => b.likelihood ≤ a.likelihood)) :
    (insertDesc x l).Pairwise (fun a b => b.likelihood ≤ a.likelihood) := by
  induction l with
  | nil => simp [insertDesc]
  | cons y ys ih =>
      rcases List.pairwise_cons.1 h with ⟨hy, hys⟩
      unfold insertDesc
      split_ifs with hle
      · refine List.pairwise_cons.2 ⟨?_, h⟩
        intro z hz
        rcases List.mem_cons.1 hz with rfl | hz2
        · exact hle
        · exact le_trans (hy z hz2) hle
      · refine List.pairwise_cons.2 ⟨?_, ih hys⟩
        intro z hz
        have hz3 : z ∈ x :: ys := (insertDesc_perm x ys).mem_iff.1 hz
        rcases List.mem_cons.1 hz3 with rfl | hz4
        · exact le_of_not_le hle
        · exact hy z hz4

theorem sortDesc_pairwise (l : List Suggestion) :
    (sortDesc l).Pairwise (fun a b => b.likelihood ≤ a.likelihood) := by
  induction l with
  | nil => simp [sortDesc]
  | cons x xs ih => exact pairwise_insertDesc x (sortDesc xs) ih

/-! ### Structure of ranking and of the whole request -/

theorem sumclamp_nonneg (cs : List CandidateEntry) :
    0 ≤ (cs.map (fun c => clamp01 c.base)).sum := by
  refine List.sum_nonneg (fun x hx => ?_)
  rcases List.mem_map.1 hx with ⟨e, _, rfl⟩
  exact clamp01_nonneg _

theorem likelihood_mem_bounds {pOpt : Option String} {cs : List CandidateEntry} {s : Suggestion}
    (hs : s ∈ rankAll pOpt cs) : 0 ≤ s.likelihood ∧ s.likelihood ≤ 1 := by
  simp only [rankAll] at hs
  rcases List.mem_map.1 hs with ⟨c, hc, rfl⟩
  dsimp only
  have hT0 : 0 ≤ (cs.map (fun c => clamp01 c.base)).sum := sumclamp_nonneg cs
  by_cases hz : (cs.map (fun c => clamp01 c.base)).sum = 0
  · simp only [hz, if_true]
    constructor
    · exact round3_nonneg (div_nonneg (clamp01_nonneg _) (by norm_num))
    · exact round3_le_one (by rw [div_one]; exact clamp01_le_one _)
  · have hpos : 0 < (cs.map (fun c => clamp01 c.base)).sum := lt_of_le_of_ne hT0 (Ne.symm hz)
    have hle : clamp01 c.base ≤ (cs.map (fun c => clamp01 c.base)).sum :=
      List.single_le_sum (fun x hx => by
        rcases List.mem_map.1 hx with ⟨e, _, rfl⟩
        exact clamp01_nonneg _) _ (List.mem_map_of_mem _ hc)
    simp only [hz, if_false]
    constructor
    · exact round3_nonneg (div_nonneg (clamp01_nonneg _) hT0)
    · exact round3_le_one ((div_le_one hpos).mpr hle)

theorem diagnose_fst (kb : KB) (fc : Option String) (d : String) :
    (diagnose kb fc d).1
      = (sortDesc (rankAll (mkPfx fc) (applyBoosts (strLower d)
          (workingList kb (mkPfx fc))))).take 5 := by
  unfold diagnose workingList
  by_cases h : (seedCandidates kb (mkPfx fc)).isEmpty <;> simp [h]

theorem mem_of_mem_diagnose {kb : KB} {fc : Option String} {d : String} {s : Suggestion}
    (hs : s ∈ (diagnose kb fc d).1) :
    s ∈ rankAll (mkPfx fc) (applyBoosts (strLower d) (workingList kb (mkPfx fc))) := by
  rw [diagnose_fst] at hs
  exact (sortDesc_perm _).mem_iff.1 (List.mem_of_mem_take hs)

/-! ### The shipped knowledge base matches at most one rule -/

theorem eq_of_isPrefixOf {m l1 l2 : List Char} (h1 : l1.isPrefixOf m = true)
    (h2 : l2.isPrefixOf m = true) (hlen : l1.length = l2.length) : l1 = l2 := by
  induction l1 generalizing l2 m with
  | nil =>
      cases l2 with
      | nil => rfl
      | cons b bs => simp at hlen
  | cons a as ih =>
      cases l2 with
      | nil => simp at hlen
      | cons b bs =>
          cases m with
          | nil => simp [List.isPrefixOf] at h1
          | cons c cs =>
              simp only [List.isPrefixOf, Bool.and_eq_true, beq_iff_eq] at h1 h2
              simp only [List.length_cons, add_left_inj] at hlen
              rw [h1.1, h2.1, ih h1.2 h2.2 hlen]

theorem key_unique {p k1 k2 : String} (hlen : k1.data.length = k2.data.length)
    (h1 : strStartsWith p k1 = true) (h2 : strStartsWith p k2 = true) : k1 = k2 := by
  have h := eq_of_isPrefixOf h1 h2 hlen
  cases k1; cases k2
  exact congrArg String.mk h

theorem pairwise_excl (p : String) {k1 k2 : String} (hlen : k1.data.length = k2.data.length)
    (hne : k1 ≠ k2) (h1 : strStartsWith p k1 = true) : strStartsWith p k2 = false :=
  Bool.eq_false_iff.mpr (fun hb => hne (key_unique hlen h1 hb))

theorem seed_none (kb : KB) : seedCandidates kb none = [] := by
  unfold seedCandidates
  induction kb with
  | nil => rfl
  | cons r rs ih =>
      simp only [List.foldl_cons, keyMatches, Bool.false_eq_true, if_false]
      exact ih

theorem seed_cases (pOpt : Option String) :
    seedCandidates FAULT_CODE_MAP pOpt = [] ∨
    seedCandidates FAULT_CODE_MAP pOpt = P030_ITEMS ∨
    seedCandidates FAULT_CODE_MAP pOpt = P017_ITEMS ∨
    seedCandidates FAULT_CODE_MAP pOpt = P042_ITEMS ∨
    seedCandidates FAULT_CODE_MAP pOpt = P012_ITEMS := by
  cases pOpt with
  | none => exact Or.inl (seed_none _)
  | some p =>
      unfold seedCandidates FAULT_CODE_MAP
      simp only [List.foldl_cons, List.foldl_nil, keyMatches]
      by_cases b1 : strStartsWith p ("P030") = true
      · have c2 := @pairwise_excl p "P030" "P017" (by decide) (by decide) b1
        have c3 := @pairwise_excl p "P030" "P042" (by decide) (by decide) b1
        have c4 := @pairwise_excl p "P030" "P012" (by decide) (by decide) b1
        simp [b1, c2, c3, c4]
      · by_cases b2 : strStartsWith p ("P017") = true
        · have c3 := @pairwise_excl p "P017" "P042" (by decide) (by decide) b2
          have c4 := @pairwise_excl p "P017" "P012" (by decide) (by decide) b2
          simp [b1, b2, c3, c4]
        · by_cases b3 : strStartsWith p ("P042") = true
          · have c4 := @pairwise_excl p "P042" "P012" (by decide) (by decide) b3
            simp [b1, b2, b3, c4]
          · by_cases b4 : strStartsWith p ("P012") = true
            · simp [b1, b2, b3, b4]
            · simp [b1, b2, b3, b4]

/-- The five possible working lists over the shipped knowledge base. -/
theorem working_cases (pOpt : Option String) :
    workingList FAULT_CODE_MAP pOpt = FALLBACK ∨
    workingList FAULT_CODE_MAP pOpt = P030_ITEMS ∨
    workingList FAULT_CODE_MAP pOpt = P017_ITEMS ∨
    workingList FAULT_CODE_MAP pOpt = P042_ITEMS ∨
    workingList FAULT_CODE_MAP pOpt = P012_ITEMS := by
  unfold workingList
  rcases seed_cases pOpt with h | h | h | h | h <;> rw [h] <;> simp [P030_ITEMS, P017_ITEMS,
    P042_ITEMS, P012_ITEMS, FALLBACK]

theorem working_props (pOpt : Option String) :
    workingList FAULT_CODE_MAP pOpt ≠ []
    ∧ (workingList FAULT_CODE_MAP pOpt).length ≤ 4
    ∧ ∀ c ∈ workingList FAULT_CODE_MAP pOpt, (18:ℚ)/100 ≤ c.base := by
  rcases working_cases pOpt with h | h | h | h | h <;> rw [h] <;>
    exact ⟨by decide, by decide, by with_unfolding_all decide⟩

theorem boosted_props (desc : String) {cs : List CandidateEntry}
    (hlb : ∀ c ∈ cs, (18:ℚ)/100 ≤ c.base) :
    (applyBoosts desc cs).length = cs.length
    ∧ ∀ c ∈ applyBoosts desc cs, (18:ℚ)/100 ≤ c.base := by
  rw [applyBoosts_eq_map]
  refine ⟨List.length_map cs _, fun c hc => ?_⟩
  rcases List.mem_map.1 hc with ⟨e, he, rfl⟩
  have h1 := boostSum_nonneg desc e.part
  have h2 := hlb e he
  dsimp only
  linarith

theorem sumclamp_pos {cs : List CandidateEntry} (hne : cs ≠ [])
    (hlb : ∀ c ∈ cs, (18:ℚ)/100 ≤ c.base) :
    0 < (cs.map (fun c => clamp01 c.base)).sum := by
  cases cs with
  | nil => exact absurd rfl hne
  | cons c cs2 =>
      have hmem : clamp01 c.base ∈ (c :: cs2).map (fun c => clamp01 c.base) :=
        List.mem_map_of_mem _ (List.mem_cons_self c cs2)
      have hle : clamp01 c.base ≤ ((c :: cs2).map (fun c => clamp01 c.base)).sum :=
        List.single_le_sum (fun x hx => by
          rcases List.mem_map.1 hx with ⟨e, _, rfl⟩
          exact clamp01_nonneg _) _ hmem
      have hc : (18:ℚ)/100 ≤ clamp01 c.base :=
        le_clamp01 (by norm_num) (by norm_num) (hlb c (List.mem_cons_self c cs2))
      linarith

theorem rank_sum_close {pOpt : Option String} {cs : List CandidateEntry}
    (hpos : (cs.map (fun c => clamp01 c.base)).sum ≠ 0) :
    |(((rankAll pOpt cs).map Suggestion.likelihood).sum - 1)|
      ≤ (((rankAll pOpt cs).length : ℚ)) * (1/2000) := by
  have e1 : (rankAll pOpt cs).map Suggestion.likelihood
      = (cs.map (fun c => clamp01 c.base / (cs.map (fun c => clamp01 c.base)).sum)).map
          round3 := by
    simp only [rankAll, if_neg hpos, List.map_map]
    rfl
  have e3 : cs.map (fun c => clamp01 c.base / (cs.map (fun c => clamp01 c.base)).sum)
      = (cs.map (fun c => clamp01 c.base)).map
          (fun x => x / (cs.map (fun c => clamp01 c.base)).sum) := by
    rw [List.map_map]; rfl
  have e2 : (cs.map (fun c => clamp01 c.base / (cs.map (fun c => clamp01 c.base)).sum)).sum
      = 1 := by
    rw [e3, sum_map_div, div_self hpos]
  have e4 : (rankAll pOpt cs).length = cs.length := by
    simp [rankAll]
  rw [e1, e4]
  have h := sum_map_round3_close
    (cs.map (fun c => clamp01 c.base / (cs.map (fun c => clamp01 c.base)).sum))
  rw [e2] at h
  simpa using h

theorem rank_zero_total {pOpt : Option String} {cs : List CandidateEntry}
    (hz : (cs.map (fun c => clamp01 c.base)).sum = 0) :
    ∀ s ∈ rankAll pOpt cs, s.likelihood = 0 := by
  intro s hs
  simp only [rankAll, hz, if_pos] at hs
  rcases List.mem_map.1 hs with ⟨c, hc, rfl⟩
  have hc0 : clamp01 c.base = 0 :=
    List.all_zero_of_le_zero_le_of_sum_eq_zero (fun x hx => by
      rcases List.mem_map.1 hx with ⟨e, _, rfl⟩
      exact clamp01_nonneg _) hz (List.mem_map_of_mem _ hc)
  dsimp only
  rw [hc0]
  have hr : rhe 0 = 0 := by unfold rhe; norm_num
  unfold round3
  norm_num [hr]

theorem rankAll_length (pOpt : Option String) (cs : List CandidateEntry) :
    (rankAll pOpt cs).length = cs.length := by
  simp [rankAll]

theorem diagnose_perm (fc : Option String) (d : String) :
    List.Perm ((diagnose FAULT_CODE_MAP fc d).1)
      (rankAll (mkPfx fc) (applyBoosts (strLower d) (workingList FAULT_CODE_MAP (mkPfx fc)))) := by
  obtain ⟨hne, hlen4, hlb⟩ := working_props (mkPfx fc)
  obtain ⟨hblen, _⟩ := boosted_props (strLower d) hlb
  have hrle5 : (rankAll (mkPfx fc)
      (applyBoosts (strLower d) (workingList FAULT_CODE_MAP (mkPfx fc)))).length ≤ 5 := by
    rw [rankAll_length, hblen]
    omega
  rw [diagnose_fst, List.take_of_length_le (by rw [sortDesc_length]; exact hrle5)]
  exact sortDesc_perm _

theorem diagnose_sum_close (fc : Option String) (d : String) :
    |((((diagnose FAULT_CODE_MAP fc d).1).map Suggestion.likelihood).sum - 1)|
      ≤ (((diagnose FAULT_CODE_MAP fc d).1).length : ℚ) * (1/2000) := by
  obtain ⟨hne, hlen4, hlb⟩ := working_props (mkPfx fc)
  obtain ⟨hblen, hblb⟩ := boosted_props (strLower d) hlb
  have hbne : applyBoosts (strLower d) (workingList FAULT_CODE_MAP (mkPfx fc)) ≠ [] := by
    have hpos : 0 < (applyBoosts (strLower d) (workingList FAULT_CODE_MAP (mkPfx fc))).length := by
      rw [hblen]
      exact List.length_pos.mpr hne
    exact List.length_pos.mp hpos
  have hpos := sumclamp_pos hbne hblb
  have hperm := diagnose_perm fc d
  have hsum := ((hperm.map Suggestion.likelihood).sum_eq)
  have hlen := hperm.length_eq
  rw [hsum, hlen]
  exact rank_sum_close (ne_of_gt hpos)

/-! ### Reason strings -/

theorem strData_append (r s : String) : (r ++ s).data = r.data ++ s.data := by
  cases r; cases s; rfl

theorem isPrefixOf_self_append (l m : List Char) : l.isPrefixOf (l ++ m) = true := by
  induction l with
  | nil => simp [List.isPrefixOf]
  | cons a as ih => simp [List.isPrefixOf, ih]

theorem strEndsWith_append (r suf : String) : strEndsWith (r ++ suf) suf = true := by
  unfold strEndsWith List.isSuffixOf
  rw [strData_append, List.reverse_append]
  exact isPrefixOf_self_append _ _

theorem strContains_append_empty (r pat : String) :
    strContains (r ++ "") pat = strContains r pat := by
  unfold strContains
  rw [strData_append]
  simp

theorem suffixFor_of_ne {p : String} (h : p.data ≠ []) :
    suffixFor (some p) = " (matched " ++ p ++ ")" := by
  unfold suffixFor
  simp [List.isEmpty_iff, h]

theorem reason_of_mem_diagnose {kb : KB} {fc : Option String} {d : String} {s : Suggestion}
    (hs : s ∈ (diagnose kb fc d).1) :
    ∃ c ∈ workingList kb (mkPfx fc), s.reason = c.reason ++ suffixFor (mkPfx fc) := by
  have h := mem_of_mem_diagnose hs
  simp only [rankAll] at h
  rcases List.mem_map.1 h with ⟨c, hc, rfl⟩
  rw [applyBoosts_eq_map] at hc
  rcases List.mem_map.1 hc with ⟨e, he, rfl⟩
  exact ⟨e, he, rfl⟩

theorem working_reasons (pOpt : Option String) :
    ∀ c ∈ workingList FAULT_CODE_MAP pOpt, strContains c.reason (" (matched") = false := by
  rcases working_cases pOpt with h | h | h | h | h <;> rw [h] <;> decide

theorem matched_count (pOpt : Option String) :
    (FAULT_CODE_MAP.filter (fun r => keyMatches pOpt r.1)).length ≤ 1 := by
  cases pOpt with
  | none => simp [keyMatches, FAULT_CODE_MAP, List.filter]
  | some p =>
      unfold FAULT_CODE_MAP
      simp only [keyMatches]
      by_cases b1 : strStartsWith p ("P030") = true
      · have c2 := @pairwise_excl p "P030" "P017" (by decide) (by decide) b1
        have c3 := @pairwise_excl p "P030" "P042" (by decide) (by decide) b1
        have c4 := @pairwise_excl p "P030" "P012" (by decide) (by decide) b1
        simp [List.filter_cons, b1, c2, c3, c4]
      · by_cases b2 : strStartsWith p ("P017") = true
        · have c3 := @pairwise_excl p "P017" "P042" (by decide) (by decide) b2
          have c4 := @pairwise_excl p "P017" "P012" (by decide) (by decide) b2
          simp [List.filter_cons, b1, b2, c3, c4]
        · by_cases b3 : strStartsWith p ("P042") = true
          · have c4 := @pairwise_excl p "P042" "P012" (by decide) (by decide) b3
            simp [List.filter_cons, b1, b2, b3, c4]
          · by_cases b4 : strStartsWith p ("P012") = true
            · simp [List.filter_cons, b1, b2, b3, b4]
            · simp [List.filter_cons, b1, b2, b3, b4]

/-! ### The claims -/

set_option maxRecDepth 40000 in
/-- C1: the claimed purity/idempotence of `diagnose` fails on the code.
`suggestions.extend(items)` shares the rule dicts with the working list, so
the keyword boost writes through to `FAULT_CODE_MAP`: after one call with
fault code `P0300` and description `rough idle` the knowledge base has
changed, and a second call with the identical inputs returns different
likelihoods (0.45 instead of 0.405 for Spark Plugs). -/
theorem C1_purity_violation :
    (diagnose FAULT_CODE_MAP (some ("P0300")) ("rough idle")).2 ≠ FAULT_CODE_MAP
    ∧ (diagnose ((diagnose FAULT_CODE_MAP (some ("P0300")) ("rough idle")).2)
          (some ("P0300")) ("rough idle")).1
        ≠ (diagnose FAULT_CODE_MAP (some ("P0300")) ("rough idle")).1 := by
  with_unfolding_all decide

set_option maxRecDepth 40000 in
/-- C2: the claimed frame property fails on the code: a `diagnose` call with
fault code `P0300` and description `rough idle` mutates the global table,
raising the Spark Plugs base of the `P030` rule from 0.6 to 0.75. -/
theorem C2_frame_violation :
    (diagnose FAULT_CODE_MAP (some ("P0300")) ("rough idle")).2 ≠ FAULT_CODE_MAP
    ∧ ((((diagnose FAULT_CODE_MAP (some ("P0300")) ("rough idle")).2.headD
          ("", [])).2.headD ⟨"", 0, ""⟩).base) = 3/4
    ∧ (((FAULT_CODE_MAP.headD ("", [])).2.headD ⟨"", 0, ""⟩).base) = 6/10 := by
  with_unfolding_all decide

/-- C3: for every input over the shipped knowledge base, `diagnose` returns
between 1 and 5 Suggestions, each with likelihood in [0,1], sorted in
descending order of likelihood. -/
theorem C3_output_shape (fc : Option String) (d : String) :
    1 ≤ ((diagnose FAULT_CODE_MAP fc d).1).length
    ∧ ((diagnose FAULT_CODE_MAP fc d).1).length ≤ 5
    ∧ (∀ s ∈ (diagnose FAULT_CODE_MAP fc d).1, 0 ≤ s.likelihood ∧ s.likelihood ≤ 1)
    ∧ ((diagnose FAULT_CODE_MAP fc d).1).Pairwise (fun a b => b.likelihood ≤ a.likelihood) := by
  obtain ⟨hne, hlen4, hlb⟩ := working_props (mkPfx fc)
  obtain ⟨hblen, _⟩ := boosted_props (strLower d) hlb
  have hperm := diagnose_perm fc d
  refine ⟨?_, ?_, ?_, ?_⟩
  · rw [hperm.length_eq, rankAll_length, hblen]
    exact List.length_pos.mpr hne
  · rw [diagnose_fst]
    exact List.length_take_le 5 _
  · intro s hs
    exact likelihood_mem_bounds (mem_of_mem_diagnose hs)
  · rw [diagnose_fst]
    exact List.Pairwise.sublist (List.take_sublist 5 _) (sortDesc_pairwise _)

set_option maxRecDepth 40000 in
/-- Witness for C3 at fault code `P0300`, description `rough idle`. -/
theorem C3_witness :
    (⟨"Spark Plugs", 81/200, "Engine misfire detected (matched P030)"⟩ : Suggestion)
      ∈ (diagnose FAULT_CODE_MAP (some ("P0300")) ("rough idle")).1
    ∧ 0 ≤ ((81:ℚ)/200) ∧ ((81:ℚ)/200) ≤ 1 := by
  refine ⟨by with_unfolding_all decide, ?_⟩
  exact (C3_output_shape (some ("P0300")) ("rough idle")).2.2.1
    ⟨"Spark Plugs", 81/200, "Engine misfire detected (matched P030)"⟩
    (by with_unfolding_all decide)

/-- C4: over the shipped knowledge base the returned likelihoods sum to 1 up
to the 3-decimal rounding of each entry (at most 1/2000 per returned
Suggestion); and in the degenerate zero-total case the divisor 1.0 makes
every ranked likelihood 0. -/
theorem C4_normalization :
    (∀ (fc : Option String) (d : String),
      |((((diagnose FAULT_CODE_MAP fc d).1).map Suggestion.likelihood).sum - 1)|
        ≤ (((diagnose FAULT_CODE_MAP fc d).1).length : ℚ) * (1/2000))
    ∧ ∀ (pOpt : Option String) (cs : List CandidateEntry),
        (cs.map (fun c => clamp01 c.base)).sum = 0 →
        ∀ s ∈ rankAll pOpt cs, s.likelihood = 0 :=
  ⟨diagnose_sum_close, fun _ _ hz => rank_zero_total hz⟩

set_option maxRecDepth 40000 in
/-- Witness for C4: the fallback response, and a degenerate zero-base list. -/
theorem C4_witness :
    |((((diagnose FAULT_CODE_MAP none ("car makes noise")).1).map Suggestion.likelihood).sum - 1)|
      ≤ (((diagnose FAULT_CODE_MAP none ("car makes noise")).1).length : ℚ) * (1/2000)
    ∧ ((rankAll none [⟨"X", 0, "xx"⟩]).headD ⟨"", 1, ""⟩).likelihood = 0 := by
  constructor
  · exact C4_normalization.1 none ("car makes noise")
  · exact C4_normalization.2 none [⟨"X", 0, "xx"⟩] (by with_unfolding_all decide) _
      (by with_unfolding_all decide)

set_option maxRecDepth 40000 in
/-- C5: the boost loop adds, to each candidate's base, exactly the sum of
the boosts of the hints that fire on the description and whose target's
first word starts the candidate's part (case-insensitively), leaving part
and reason unchanged; concretely, for fault code `P0300` the description
`rough idle` raises Spark Plugs' likelihood to 0.405, against 0.353 for the
same call without that keyword. -/
theorem C5_keyword_boosts :
    (∀ (d : String) (cs : List CandidateEntry),
      applyBoosts d cs = cs.map (fun c => ⟨c.part, c.base + boostSum d c.part, c.reason⟩))
    ∧ ((diagnose FAULT_CODE_MAP (some ("P0300")) ("rough idle")).1.find?
        (fun s => s.part == "Spark Plugs")).map Suggestion.likelihood = some (81/200)
    ∧ ((diagnose FAULT_CODE_MAP (some ("P0300")) ("")).1.find?
        (fun s => s.part == "Spark Plugs")).map Suggestion.likelihood = some (353/1000)
    ∧ (353:ℚ)/1000 < 81/200 :=
  ⟨applyBoosts_eq_map, by with_unfolding_all decide, by with_unfolding_all decide, by norm_num⟩

set_option maxRecDepth 40000 in
/-- C6: with no fault code and the generic description `car makes noise`,
the response is exactly the fallback triple ranked Battery, Alternator,
Spark Plugs, with likelihoods `round(base/0.63, 3)` = 0.397, 0.317, 0.286. -/
theorem C6_fallback_values :
    (diagnose FAULT_CODE_MAP none ("car makes noise")).1
      = [ ⟨"Battery", 397/1000, "Common electrical issue"⟩
        , ⟨"Alternator", 317/1000, "Charging system faults"⟩
        , ⟨"Spark Plugs", 286/1000, "Wear item, causes misfires"⟩ ]
    ∧ (397:ℚ)/1000 = round3 ((25:ℚ)/100 / (63/100))
    ∧ (317:ℚ)/1000 = round3 ((2:ℚ)/10 / (63/100))
    ∧ (286:ℚ)/1000 = round3 ((18:ℚ)/100 / (63/100)) := by
  with_unfolding_all decide

set_option maxRecDepth 40000 in
/-- C7 counterexample: a whitespace-only fault code is truthy in Python, so
the normalized code is the non-null empty string; the claim then demands
the suffix " (matched )" on every reason, but line 151 tests the
truthiness of the normalized code and appends nothing. -/
theorem C7_counterexample :
    (" " : String) ≠ ""
    ∧ mkPfx (some (" ")) = some ("")
    ∧ ((diagnose FAULT_CODE_MAP (some (" ")) ("x")).1.all
        (fun s => strEndsWith s.reason (" (matched " ++ "" ++ ")"))) = false := by
  with_unfolding_all decide

/-- C7 (amended): when the normalized fault code is non-empty every returned
reason ends with " (matched {code})"; when the fault code is absent, empty,
or whitespace-only (normalized code `none` or empty) no such marker occurs
in any returned reason. -/
theorem C7_reason_suffix (fc : Option String) (d : String) (s : Suggestion)
    (hs : s ∈ (diagnose FAULT_CODE_MAP fc d).1) :
    (∀ p, mkPfx fc = some p → p.data ≠ [] →
      strEndsWith s.reason (" (matched " ++ p ++ ")") = true)
    ∧ ((mkPfx fc = none ∨ mkPfx fc = some ("")) →
      strContains s.reason (" (matched") = false) := by
  obtain ⟨c, hc, hr⟩ := reason_of_mem_diagnose hs
  constructor
  · intro p hp hpd
    rw [hr, hp, suffixFor_of_ne hpd]
    exact strEndsWith_append _ _
  · intro hnone
    have hsuf : suffixFor (mkPfx fc) = "" := by
      rcases hnone with h | h <;> rw [h] <;> rfl
    rw [hr, hsuf, strContains_append_empty]
    exact working_reasons (mkPfx fc) c hc

set_option maxRecDepth 40000 in
/-- Witness for C7 (amended), on a matched code and on an absent code. -/
theorem C7_witness :
    strEndsWith (Suggestion.reason
        ⟨"Spark Plugs", 353/1000, "Engine misfire detected (matched P030)"⟩)
      (" (matched " ++ "P030" ++ ")") = true
    ∧ strContains (Suggestion.reason ⟨"Battery", 397/1000, "Common electrical issue"⟩)
      (" (matched") = false := by
  constructor
  · exact (C7_reason_suffix (some ("P0300")) ("zz")
      ⟨"Spark Plugs", 353/1000, "Engine misfire detected (matched P030)"⟩
      (by with_unfolding_all decide)).1 "P030" (by with_unfolding_all decide) (by decide)
  · exact (C7_reason_suffix none ("zz")
      ⟨"Battery", 397/1000, "Common electrical issue"⟩
      (by with_unfolding_all decide)).2 (Or.inl rfl)

/-- C8: when the Persistence Gateway's create call raises, the diagnose
endpoint still returns the computed Suggestions with a null id; when the
list call raises, the history endpoint returns an empty item list. -/
theorem C8_persistence_failure :
    (∀ (kb : KB) (fc : Option String) (d : String),
      (diagnoseEndpoint kb fc d GatewayResult.raised).1 = ((diagnose kb fc d).1, none))
    ∧ ∀ (α : Type), historyEndpoint (GatewayResult.raised : GatewayResult (List α)) = [] :=
  ⟨fun _ _ _ => rfl, fun _ => rfl⟩

/-- C9: an empty-string fault code is falsy, so it behaves exactly like an
absent fault code: same response, same knowledge-base after-state, a null
normalized code, and no reason suffix. -/
theorem C9_empty_fault_code (kb : KB) (d : String) :
    diagnose kb (some ("")) d = diagnose kb none d
    ∧ mkPfx (some ("")) = none
    ∧ suffixFor (mkPfx (some (""))) = "" :=
  ⟨rfl, rfl, rfl⟩

/-- C10: the four rule keys all have exactly 4 characters, none is a prefix
of another, so at most one rule ever contributes, the seeded working list
has at most 4 entries, and the top-5 truncation never discards a ranked
candidate (the response is a permutation of the whole ranked list). -/
theorem C10_single_rule (fc : Option String) (d : String) :
    (∀ r ∈ FAULT_CODE_MAP, r.1.data.length = 4)
    ∧ (∀ r1 ∈ FAULT_CODE_MAP, ∀ r2 ∈ FAULT_CODE_MAP, r1.1 ≠ r2.1 →
        r1.1.data.isPrefixOf r2.1.data = false)
    ∧ (FAULT_CODE_MAP.filter (fun r => keyMatches (mkPfx fc) r.1)).length ≤ 1
    ∧ (seedCandidates FAULT_CODE_MAP (mkPfx fc)).length ≤ 4
    ∧ List.Perm ((diagnose FAULT_CODE_MAP fc d).1)
        (rankAll (mkPfx fc) (applyBoosts (strLower d) (workingList FAULT_CODE_MAP (mkPfx fc)))) := by
  refine ⟨by decide, by decide, matched_count _, ?_, diagnose_perm fc d⟩
  rcases seed_cases (mkPfx fc) with h | h | h | h | h <;> rw [h] <;> decide

set_option maxRecDepth 40000 in
/-- Witness for C10 at fault code `P0300`. -/
theorem C10_witness :
    (("P030", P030_ITEMS) : String × List CandidateEntry).1.data.length = 4
    ∧ (("P030", P030_ITEMS) : String × List CandidateEntry).1.data.isPrefixOf
        (("P017", P017_ITEMS) : String × List CandidateEntry).1.data = false
    ∧ (seedCandidates FAULT_CODE_MAP (mkPfx (some ("P0300")))).length ≤ 4 := by
  refine ⟨?_, ?_, ?_⟩
  · exact (C10_single_rule (some ("P0300")) ("x")).1 _ (by with_unfolding_all decide)
  · exact (C10_single_rule (some ("P0300")) ("x")).2.1 _ (by with_unfolding_all decide) _
      (by with_unfolding_all decide) (by decide)
  · exact (C10_single_rule (some ("P0300")) ("x")).2.2.2.1

end AutoDiag
